import Mathlib

/-!
Shallow embedding of the `rustvent` crate (observer-pattern events), covering
the synchronous `Event` (src/rustvent/src/lib.rs) and the concurrent
`EventAsync` (src/rustvent/src/event_async.rs).

Modelling conventions:
* `Rc<dyn Subscriber>` handles are modelled as a record of an allocation
  address (`addr`) plus the pointee's contents; `Rc::ptr_eq` compares `addr`
  only.
* `Rc<RefCell<dyn SubscriberMut>>` handles carry a `borrowed` flag (whether
  some borrow of the cell is held elsewhere at dispatch time), the cell's
  internal state, and the subscriber's `update_mut` body as a function on that
  state.  `borrow_mut` on an already borrowed cell panics, which the model
  surfaces as a panic flag.
* Counters are `u32` in Rust, incremented only by `+= 1`; since overflow of
  `+=` is a panic (not a wrap) in checked semantics, they are modelled as
  `Nat`.
* Dispatch returns, next to the new event state, a trace of the subscriber
  invocations it performed (in program order) and a Boolean panic flag;
  a panicking call returns the state the event holds when the panic unwinds.
* `Vec::swap_remove` is `swapRemove` below; `Iterator::position` is
  `position`.
-/

namespace Rustvent

/-- Selects which subscriber kinds `notify` dispatches
(`enum Notify`, src/rustvent/src/lib.rs lines 37-46). -/
inductive Notify where
  | All
  | OnlySubscribers
  | OnlySubscribersMut
  | OnlyFnSubscribers
  deriving DecidableEq, Repr

/-- Selects which subscriber collections are cleared after a notification
(`enum Clear`, src/rustvent/src/lib.rs lines 48-54). -/
inductive Clear where
  | All
  | OnlySubscribers
  | OnlySubscribersMut
  | OnlyFuncSubscribers
  | None
  deriving DecidableEq, Repr

/-- Per-event configuration (`struct EventConfig`, lib.rs lines 30-33). -/
structure EventConfig where
  subscribers_to_notify : Notify
  clear_subscribers_after_notification : Clear
  deriving DecidableEq, Repr

/-- The `Default` impl for `EventConfig` (lib.rs lines 267-274):
`Notify::All` and `Clear::All`. -/
def EventConfig.default : EventConfig :=
  { subscribers_to_notify := Notify.All
    clear_subscribers_after_notification := Clear.All }

/-- An `Rc<dyn Subscriber>` handle: `addr` is the allocation address (what
`Rc::ptr_eq` compares), `value` stands for the pointee's contents (never
consulted by the event, which shows that matching is by identity, not by
structural equality). -/
structure RcSub where
  addr : Nat
  value : Int
  deriving DecidableEq, Repr

/-- An `Rc<RefCell<dyn SubscriberMut>>` handle.  `borrowed` records whether a
borrow of the cell is held outside the dispatcher when `notify` runs; `state`
is the subscriber's internal state, and `upd` the body of its `update_mut`
method as a state transformer. -/
structure MutSub where
  addr : Nat
  borrowed : Bool
  state : Int
  upd : Int → Int

/-- The synchronous `Event` (lib.rs lines 18-27).  Closure subscribers have no
identity in the source (`Box<dyn Fn()>`); the model tags them with a `Nat` so
their invocations can be traced. -/
structure Event where
  times_subscribers_notified : Nat
  times_subscribers_mut_notified : Nat
  times_func_subscribers_notified : Nat
  subscribers : List RcSub
  subscribers_mut : List MutSub
  fn_subscribers : List Nat
  config : EventConfig

/-- `Event::new` (lib.rs lines 59-69): empty collections, zero counters. -/
def Event.new (config : EventConfig) : Event :=
  { times_subscribers_notified := 0
    times_subscribers_mut_notified := 0
    times_func_subscribers_notified := 0
    subscribers := []
    subscribers_mut := []
    fn_subscribers := []
    config := config }

/-- The derived `Default` for `Event` (lib.rs line 18): all fields default,
with the config from `EventConfig.default`. -/
def Event.mkDefault : Event :=
  Event.new EventConfig.default

/-- One recorded subscriber invocation: which kind was dispatched and the
identity (address, or closure tag) of the invoked subscriber. -/
inductive Inv where
  | sub (addr : Nat)
  | subMut (addr : Nat)
  | fnSub (tag : Nat)
  deriving DecidableEq, Repr

/-- `Iterator::position` over a list: index of the first element satisfying
`p`, if any. -/
def position (p : α → Bool) : List α → Option Nat
  | [] => none
  | a :: l => if p a then some 0 else (position p l).map (· + 1)

/-- `Vec::swap_remove i`: overwrite index `i` with the last element, then pop
the last element.  (On the empty list the Rust call would be an
out-of-bounds panic; all uses below have `i` in range.) -/
def swapRemove (l : List α) (i : Nat) : List α :=
  match l.getLast? with
  | none => []
  | some b => (l.set i b).dropLast

/-- `Event::subscribe` (lib.rs lines 88-90): push onto `subscribers`. -/
def Event.subscribe (e : Event) (s : RcSub) : Event :=
  { e with subscribers := e.subscribers ++ [s] }

/-- `Event::subscribe_mut` (lib.rs lines 92-94). -/
def Event.subscribe_mut (e : Event) (s : MutSub) : Event :=
  { e with subscribers_mut := e.subscribers_mut ++ [s] }

/-- `Event::subscribe_as_fn` (lib.rs lines 103-106). -/
def Event.subscribe_as_fn (e : Event) (tag : Nat) : Event :=
  { e with fn_subscribers := e.fn_subscribers ++ [tag] }

/-- `Event::contains` (lib.rs lines 189-198): index of the first registered
read-only subscriber that is `Rc::ptr_eq` to the argument. -/
def Event.contains (e : Event) (s : RcSub) : Option Nat :=
  position (fun existing_sub => existing_sub.addr == s.addr) e.subscribers

/-- `Event::contains_mut` (lib.rs lines 200-209). -/
def Event.contains_mut (e : Event) (s : MutSub) : Option Nat :=
  position (fun existing_sub => existing_sub.addr == s.addr) e.subscribers_mut

/-- `Event::unsubscribe` (lib.rs lines 110-115): look the handle up by
identity and `swap_remove` it; `none` models the `.expect` panic when the
handle is absent. -/
def Event.unsubscribe (e : Event) (s : RcSub) : Option Event :=
  match e.contains s with
  | none => none
  | some i => some { e with subscribers := swapRemove e.subscribers i }

/-- `Event::unsubscribe_mut` (lib.rs lines 117-122). -/
def Event.unsubscribe_mut (e : Event) (s : MutSub) : Option Event :=
  match e.contains_mut s with
  | none => none
  | some i => some { e with subscribers_mut := swapRemove e.subscribers_mut i }

/-- `Event::notify_subscribers` (lib.rs lines 211-218): early return when the
collection is empty; otherwise invoke every read-only subscriber in
registration order, then increment the read-only counter by 1.  The second
component is the invocation trace. -/
def Event.notify_subscribers (e : Event) : Event × List Inv :=
  if e.subscribers.isEmpty then (e, [])
  else
    ({ e with times_subscribers_notified := e.times_subscribers_notified + 1 },
     e.subscribers.map (fun s => Inv.sub s.addr))

/-- The loop body of `Event::notify_subscribers_mut` (lib.rs lines 223-226):
process the mutating subscribers in order; `borrow_mut` on each cell panics if
the cell is already borrowed, aborting the loop there (earlier cells stay
updated).  Returns the processed list, the invocation trace, and the panic
flag. -/
def runMutLoop : List MutSub → List MutSub × List Inv × Bool
  | [] => ([], [], false)
  | s :: rest =>
    if s.borrowed then (s :: rest, [], true)
    else
      let r := runMutLoop rest
      ({ s with state := s.upd s.state } :: r.1, Inv.subMut s.addr :: r.2.1, r.2.2)

/-- `Event::notify_subscribers_mut` (lib.rs lines 220-228): early return when
empty; otherwise run the borrow-and-update loop and, only when the whole loop
completed without a borrow panic, increment the mutating counter by 1. -/
def Event.notify_subscribers_mut (e : Event) : Event × List Inv × Bool :=
  if e.subscribers_mut.isEmpty then (e, [], false)
  else
    let r := runMutLoop e.subscribers_mut
    if r.2.2 then
      ({ e with subscribers_mut := r.1 }, r.2.1, true)
    else
      ({ e with
          subscribers_mut := r.1
          times_subscribers_mut_notified := e.times_subscribers_mut_notified + 1 },
       r.2.1, false)

/-- `Event::notify_fn_subscribers` (lib.rs lines 230-237). -/
def Event.notify_fn_subscribers (e : Event) : Event × List Inv :=
  if e.fn_subscribers.isEmpty then (e, [])
  else
    ({ e with times_func_subscribers_notified := e.times_func_subscribers_notified + 1 },
     e.fn_subscribers.map Inv.fnSub)

/-- `Event::clear_subscribers` (lib.rs lines 254-256). -/
def Event.clear_subscribers (e : Event) : Event :=
  { e with subscribers := [] }

/-- `Event::clear_subscribers_mut` (lib.rs lines 258-260). -/
def Event.clear_subscribers_mut (e : Event) : Event :=
  { e with subscribers_mut := [] }

/-- `Event::clear_fn_subscribers` (lib.rs lines 262-264). -/
def Event.clear_fn_subscribers (e : Event) : Event :=
  { e with fn_subscribers := [] }

/-- `Event::clear_all_subscribers` (lib.rs lines 249-252).  Note that the
source clears only `subscribers` and `fn_subscribers`; it does NOT clear
`subscribers_mut`. -/
def Event.clear_all_subscribers (e : Event) : Event :=
  (e.clear_subscribers).clear_fn_subscribers

/-- `Event::try_clear` (lib.rs lines 239-247). -/
def Event.try_clear (e : Event) : Event :=
  match e.config.clear_subscribers_after_notification with
  | Clear.All => e.clear_all_subscribers
  | Clear.OnlySubscribers => e.clear_subscribers
  | Clear.OnlySubscribersMut => e.clear_subscribers_mut
  | Clear.OnlyFuncSubscribers => e.clear_fn_subscribers
  | Clear.None => e

/-- `Event::notify` (lib.rs lines 174-187): dispatch the kinds selected by
`subscribers_to_notify`, then apply the clear policy.  A borrow panic in the
mutating phase unwinds before later phases and before `try_clear`. -/
def Event.notify (e : Event) : Event × List Inv × Bool :=
  match e.config.subscribers_to_notify with
  | Notify.All =>
    let r1 := e.notify_subscribers
    let r2 := r1.1.notify_subscribers_mut
    if r2.2.2 then (r2.1, r1.2 ++ r2.2.1, true)
    else
      let r3 := r2.1.notify_fn_subscribers
      (r3.1.try_clear, r1.2 ++ r2.2.1 ++ r3.2, false)
  | Notify.OnlySubscribers =>
    let r1 := e.notify_subscribers
    (r1.1.try_clear, r1.2, false)
  | Notify.OnlySubscribersMut =>
    let r1 := e.notify_subscribers_mut
    if r1.2.2 then (r1.1, r1.2.1, true)
    else (r1.1.try_clear, r1.2.1, false)
  | Notify.OnlyFnSubscribers =>
    let r1 := e.notify_fn_subscribers
    (r1.1.try_clear, r1.2, false)

/-- An `Arc<dyn SubscriberAsync + Send + Sync>` handle (or an
`Arc<dyn Fn()>` closure): `addr` is the allocation address, and `fails`
records whether the subscriber's invocation panics inside its spawned
thread. -/
structure AsyncSub where
  addr : Nat
  fails : Bool
  deriving DecidableEq, Repr

/-- The concurrent `EventAsync` (event_async.rs lines 11-18): two collections
and two lifetime counters. -/
structure EventAsync where
  times_subscribers_notified : Nat
  times_func_subscribers_notified : Nat
  subscribers : List AsyncSub
  fn_subscribers : List AsyncSub
  config : EventConfig
  deriving DecidableEq, Repr

/-- `EventAsync::new` (event_async.rs lines 21-30). -/
def EventAsync.new (config : EventConfig) : EventAsync :=
  { times_subscribers_notified := 0
    times_func_subscribers_notified := 0
    subscribers := []
    fn_subscribers := []
    config := config }

/-- The derived `Default` for `EventAsync` (event_async.rs line 11). -/
def EventAsync.mkDefault : EventAsync :=
  EventAsync.new EventConfig.default

/-- `EventAsync::subscribe` (event_async.rs lines 40-42). -/
def EventAsync.subscribe (e : EventAsync) (s : AsyncSub) : EventAsync :=
  { e with subscribers := e.subscribers ++ [s] }

/-- `EventAsync::subscribe_as_fn` (event_async.rs lines 44-46). -/
def EventAsync.subscribe_as_fn (e : EventAsync) (s : AsyncSub) : EventAsync :=
  { e with fn_subscribers := e.fn_subscribers ++ [s] }

/-- `EventAsync::unsubscribe` (event_async.rs lines 48-55): `position` by
`Arc::ptr_eq`, then `swap_remove`; `none` models the `.expect` panic. -/
def EventAsync.unsubscribe (e : EventAsync) (s : AsyncSub) : Option EventAsync :=
  match position (fun sub => sub.addr == s.addr) e.subscribers with
  | none => none
  | some i => some { e with subscribers := swapRemove e.subscribers i }

/-- One step of the concurrent dispatcher's program order: spawning the thread
for a subscriber, the counter increment, or the join (the point where the
caller observes a spawned unit's completion or panics on its failure). -/
inductive AStep where
  | spawn (addr : Nat)
  | inc
  | join (addr : Nat)
  deriving DecidableEq, Repr

/-- The join loop `handles.into_iter().for_each(|h| h.join().unwrap())`
(event_async.rs line 85): joins in spawn order; the first failed unit makes
`unwrap` panic, so later handles are not joined.  Returns the joins observed
(as trace steps) and the panic flag. -/
def joinPhase : List AsyncSub → List AStep × Bool
  | [] => ([], false)
  | s :: rest =>
    if s.fails then ([AStep.join s.addr], true)
    else
      let r := joinPhase rest
      (AStep.join s.addr :: r.1, r.2)

/-- `EventAsync::notify_subscribers` (event_async.rs lines 70-86): spawn one
thread per registered subscriber (no emptiness guard), increment the counter,
then join every handle in order.  The trace records the program order of the
calling thread: all spawns, then the increment, then the joins.  Note the
counter is incremented even when the collection is empty, and before the join
loop runs. -/
def EventAsync.notify_subscribers (e : EventAsync) : EventAsync × List AStep × Bool :=
  let jp := joinPhase e.subscribers
  ({ e with times_subscribers_notified := e.times_subscribers_notified + 1 },
   e.subscribers.map (fun s => AStep.spawn s.addr) ++ AStep.inc :: jp.1,
   jp.2)

/-- `EventAsync::notify_fn_subscribers` (event_async.rs lines 88-104): same
shape over the closure collection and its counter. -/
def EventAsync.notify_fn_subscribers (e : EventAsync) : EventAsync × List AStep × Bool :=
  let jp := joinPhase e.fn_subscribers
  ({ e with times_func_subscribers_notified := e.times_func_subscribers_notified + 1 },
   e.fn_subscribers.map (fun s => AStep.spawn s.addr) ++ AStep.inc :: jp.1,
   jp.2)

/-- `EventAsync::clear_subscribers` (event_async.rs lines 120-122). -/
def EventAsync.clear_subscribers (e : EventAsync) : EventAsync :=
  { e with subscribers := [] }

/-- `EventAsync::clear_fn_subscribers` (event_async.rs lines 124-126). -/
def EventAsync.clear_fn_subscribers (e : EventAsync) : EventAsync :=
  { e with fn_subscribers := [] }

/-- `EventAsync::clear_all_subscribers` (event_async.rs lines 115-118): the
async event has only the two collections, and both are cleared. -/
def EventAsync.clear_all_subscribers (e : EventAsync) : EventAsync :=
  (e.clear_subscribers).clear_fn_subscribers

/-- `EventAsync::try_clear` (event_async.rs lines 106-113).  The source match
has no arm for `Clear::OnlySubscribersMut` (the async event has no mutating
collection; as written the match is non-exhaustive), so that case is modelled
as clearing nothing. -/
def EventAsync.try_clear (e : EventAsync) : EventAsync :=
  match e.config.clear_subscribers_after_notification with
  | Clear.All => e.clear_all_subscribers
  | Clear.OnlySubscribers => e.clear_subscribers
  | Clear.OnlyFuncSubscribers => e.clear_fn_subscribers
  | _ => e

/-- `EventAsync::notify` (event_async.rs lines 57-68); the source match has no
arm for `Notify::OnlySubscribersMut` (non-exhaustive as written), modelled as
dispatching nothing.  A join panic unwinds before later phases and before
`try_clear`. -/
def EventAsync.notify (e : EventAsync) : EventAsync × List AStep × Bool :=
  match e.config.subscribers_to_notify with
  | Notify.All =>
    let r1 := e.notify_subscribers
    if r1.2.2 then r1
    else
      let r2 := r1.1.notify_fn_subscribers
      if r2.2.2 then (r2.1, r1.2.1 ++ r2.2.1, true)
      else (r2.1.try_clear, r1.2.1 ++ r2.2.1, false)
  | Notify.OnlySubscribers =>
    let r1 := e.notify_subscribers
    if r1.2.2 then r1 else (r1.1.try_clear, r1.2.1, false)
  | Notify.OnlyFnSubscribers =>
    let r1 := e.notify_fn_subscribers
    if r1.2.2 then r1 else (r1.1.try_clear, r1.2.1, false)
  | Notify.OnlySubscribersMut => (e, [], false)

/-- The public operations on a synchronous `Event` (the clear methods are the
bodies the clear policies dispatch to). -/
inductive Op where
  | subscribe (s : RcSub)
  | subscribeMut (s : MutSub)
  | subscribeAsFn (tag : Nat)
  | unsubscribe (s : RcSub)
  | unsubscribeMut (s : MutSub)
  | doNotify
  | clearAll
  | clearSubs
  | clearSubsMut
  | clearFn

/-- Apply one operation to an `Event`.  A panicking call (`unsubscribe` of an
absent handle) unwinds before mutating anything, so the state is kept; a
panicking `notify` keeps the state it had when the panic unwound. -/
def Event.step (e : Event) (op : Op) : Event :=
  match op with
  | Op.subscribe s => e.subscribe s
  | Op.subscribeMut s => e.subscribe_mut s
  | Op.subscribeAsFn tag => e.subscribe_as_fn tag
  | Op.unsubscribe s => (e.unsubscribe s).getD e
  | Op.unsubscribeMut s => (e.unsubscribe_mut s).getD e
  | Op.doNotify => (e.notify).1
  | Op.clearAll => e.clear_all_subscribers
  | Op.clearSubs => e.clear_subscribers
  | Op.clearSubsMut => e.clear_subscribers_mut
  | Op.clearFn => e.clear_fn_subscribers

/-- The public operations on an `EventAsync`. -/
inductive AOp where
  | subscribe (s : AsyncSub)
  | subscribeAsFn (s : AsyncSub)
  | unsubscribe (s : AsyncSub)
  | doNotify
  | doNotifySubs
  | doNotifyFnSubs
  | clearAll
  | clearSubs
  | clearFn

/-- Apply one operation to an `EventAsync` (same panic conventions as
`Event.step`). -/
def EventAsync.step (e : EventAsync) (op : AOp) : EventAsync :=
  match op with
  | AOp.subscribe s => e.subscribe s
  | AOp.subscribeAsFn s => e.subscribe_as_fn s
  | AOp.unsubscribe s => (e.unsubscribe s).getD e
  | AOp.doNotify => (e.notify).1
  | AOp.doNotifySubs => (e.notify_subscribers).1
  | AOp.doNotifyFnSubs => (e.notify_fn_subscribers).1
  | AOp.clearAll => e.clear_all_subscribers
  | AOp.clearSubs => e.clear_subscribers
  | AOp.clearFn => e.clear_fn_subscribers

/-- Pointwise order on the three lifetime counters of a synchronous event. -/
def Event.countersLe (d e : Event) : Prop :=
  d.times_subscribers_notified ≤ e.times_subscribers_notified ∧
  d.times_subscribers_mut_notified ≤ e.times_subscribers_mut_notified ∧
  d.times_func_subscribers_notified ≤ e.times_func_subscribers_notified

/-- Pointwise order on the two lifetime counters of a concurrent event. -/
def EventAsync.countersLe (d e : EventAsync) : Prop :=
  d.times_subscribers_notified ≤ e.times_subscribers_notified ∧
  d.times_func_subscribers_notified ≤ e.times_func_subscribers_notified

/-! Concrete events used by the claim theorems, their witnesses and
counterexamples. -/

/-- An event with two registered read-only subscribers (distinct addresses),
dispatching only the read-only kind. -/
def sampleTwoReadonly : Event :=
  { times_subscribers_notified := 0
    times_subscribers_mut_notified := 0
    times_func_subscribers_notified := 0
    subscribers := [{ addr := 1, value := 5 }, { addr := 2, value := 7 }]
    subscribers_mut := []
    fn_subscribers := []
    config := { subscribers_to_notify := Notify.OnlySubscribers
                clear_subscribers_after_notification := Clear.All } }

/-- An event holding one subscriber of every kind, configured to notify all
kinds and to clear all collections afterwards. -/
def sampleAllKinds : Event :=
  { times_subscribers_notified := 0
    times_subscribers_mut_notified := 0
    times_func_subscribers_notified := 0
    subscribers := [{ addr := 1, value := 0 }]
    subscribers_mut := [{ addr := 2, borrowed := false, state := 10, upd := fun x => x + 10 }]
    fn_subscribers := [3]
    config := { subscribers_to_notify := Notify.All
                clear_subscribers_after_notification := Clear.All } }

/-- An event with one mutating subscriber whose internal state is 10 and whose
mutating update adds 10, with no borrow held anywhere. -/
def sampleMutOk : Event :=
  { times_subscribers_notified := 0
    times_subscribers_mut_notified := 0
    times_func_subscribers_notified := 0
    subscribers := []
    subscribers_mut := [{ addr := 2, borrowed := false, state := 10, upd := fun x => x + 10 }]
    fn_subscribers := []
    config := { subscribers_to_notify := Notify.OnlySubscribersMut
                clear_subscribers_after_notification := Clear.None } }

/-- The same event, but with a borrow of the subscriber's cell held elsewhere
when dispatch runs. -/
def sampleMutBorrowed : Event :=
  { times_subscribers_notified := 0
    times_subscribers_mut_notified := 0
    times_func_subscribers_notified := 0
    subscribers := []
    subscribers_mut := [{ addr := 2, borrowed := true, state := 10, upd := fun x => x + 10 }]
    fn_subscribers := []
    config := { subscribers_to_notify := Notify.OnlySubscribersMut
                clear_subscribers_after_notification := Clear.None } }

/-- An event with two read-only subscribers whose pointees hold the same
contents (value 1) at distinct addresses, and one mutating subscriber. -/
def sampleForRemoval : Event :=
  { times_subscribers_notified := 0
    times_subscribers_mut_notified := 0
    times_func_subscribers_notified := 0
    subscribers := [{ addr := 5, value := 1 }, { addr := 6, value := 1 }]
    subscribers_mut := [{ addr := 7, borrowed := false, state := 0, upd := fun x => x }]
    fn_subscribers := []
    config := { subscribers_to_notify := Notify.All
                clear_subscribers_after_notification := Clear.None } }

/-- An event with one read-only subscriber and one closure registered, and
`subscribers_to_notify = OnlyFnSubscribers`. -/
def sampleOnlyFn : Event :=
  { times_subscribers_notified := 0
    times_subscribers_mut_notified := 0
    times_func_subscribers_notified := 0
    subscribers := [{ addr := 1, value := 0 }]
    subscribers_mut := []
    fn_subscribers := [2]
    config := { subscribers_to_notify := Notify.OnlyFnSubscribers
                clear_subscribers_after_notification := Clear.None } }

/-- An async event with two registered read-only subscribers, neither of
which fails. -/
def sampleAsyncTwo : EventAsync :=
  { times_subscribers_notified := 0
    times_func_subscribers_notified := 0
    subscribers := [{ addr := 1, fails := false }, { addr := 2, fails := false }]
    fn_subscribers := []
    config := { subscribers_to_notify := Notify.OnlySubscribers
                clear_subscribers_after_notification := Clear.None } }

/-- An async event with one registered subscriber whose invocation fails. -/
def sampleAsyncFailing : EventAsync :=
  { times_subscribers_notified := 0
    times_func_subscribers_notified := 0
    subscribers := [{ addr := 1, fails := true }]
    fn_subscribers := []
    config := { subscribers_to_notify := Notify.OnlySubscribers
                clear_subscribers_after_notification := Clear.None } }

/-! Helper lemmas about `position` and `swapRemove`. -/

lemma position_eq_none_of {p : α → Bool} :
    ∀ {l : List α}, (∀ x ∈ l, p x = false) → position p l = none := by
  intro l h
  induction l with
  | nil => rfl
  | cons a l ih =>
    have ha : p a = false := h a (List.mem_cons_self a l)
    have ht : ∀ x ∈ l, p x = false := fun x hx => h x (List.mem_cons_of_mem a hx)
    simp [position, ha, ih ht]

lemma position_spec {p : α → Bool} :
    ∀ {l : List α} {i : Nat}, position p l = some i →
      ∃ hi : i < l.length, p (l.get ⟨i, hi⟩) = true := by
  intro l
  induction l with
  | nil => intro i h; simp [position] at h
  | cons a l ih =>
    intro i h
    by_cases ha : p a = true
    · simp [position, ha] at h
      subst h
      exact ⟨Nat.succ_pos _, ha⟩
    · simp [position, ha] at h
      obtain ⟨j, hj, rfl⟩ := h
      obtain ⟨hlt, hget⟩ := ih hj
      exact ⟨Nat.succ_lt_succ hlt, hget⟩

lemma position_isSome_of_countP_pos {p : α → Bool} :
    ∀ {l : List α}, 0 < l.countP p → ∃ i, position p l = some i := by
  intro l
  induction l with
  | nil => intro h; simp at h
  | cons a l ih =>
    intro h
    by_cases ha : p a = true
    · exact ⟨0, by simp [position, ha]⟩
    · have : 0 < l.countP p := by
        simpa [List.countP_cons, ha] using h
      obtain ⟨i, hi⟩ := ih this
      exact ⟨i + 1, by simp [position, ha, hi]⟩

lemma dropLast_cons_of_ne_nil (a : α) {l : List α} (h : l ≠ []) :
    (a :: l).dropLast = a :: l.dropLast := by
  cases l with
  | nil => exact absurd rfl h
  | cons b l => simp [List.dropLast_cons₂]

lemma swapRemove_cons_cons (a b : α) (l : List α) (i : Nat) :
    swapRemove (a :: b :: l) (i + 1) = a :: swapRemove (b :: l) i := by
  have hlast : (a :: b :: l).getLast? = (b :: l).getLast? := by
    simp [List.getLast?_cons_cons]
  obtain ⟨c, hc⟩ : ∃ c, (b :: l).getLast? = some c := by
    cases hg : (b :: l).getLast? with
    | none => simp [List.getLast?_eq_none_iff] at hg
    | some c => exact ⟨c, rfl⟩
  have hset : (b :: l).set i c ≠ [] := by
    intro hnil
    have := congrArg List.length hnil
    simp at this
  simp only [swapRemove, hlast, hc]
  rw [show (a :: b :: l).set (i + 1) c = a :: (b :: l).set i c from rfl]
  rw [dropLast_cons_of_ne_nil a hset]

lemma swapRemove_perm :
    ∀ (l : List α) (i : Nat), i < l.length → (swapRemove l i).Perm (l.eraseIdx i)
  | [], i, h => by simp at h
  | [a], 0, _ => by simp [swapRemove]
  | [a], i + 1, h => by simp at h
  | a :: b :: l, 0, _ => by
    obtain ⟨c, hc⟩ : ∃ c, (b :: l).getLast? = some c := by
      cases hg : (b :: l).getLast? with
      | none => simp [List.getLast?_eq_none_iff] at hg
      | some c => exact ⟨c, rfl⟩
    have hlast : (a :: b :: l).getLast? = some c := by
      simp [List.getLast?_cons_cons, hc]
    have hdecomp : (b :: l).dropLast ++ [c] = b :: l :=
      List.dropLast_append_getLast? c hc
    simp only [swapRemove, hlast]
    rw [show (a :: b :: l).set 0 c = c :: b :: l from rfl]
    rw [dropLast_cons_of_ne_nil c (List.cons_ne_nil b l)]
    rw [show (a :: b :: l).eraseIdx 0 = b :: l from rfl]
    have h1 : (c :: (b :: l).dropLast).Perm ((b :: l).dropLast ++ [c]) :=
      @List.perm_append_comm _ [c] ((b :: l).dropLast)
    refine h1.trans ?h
    rw [hdecomp]
  | a :: b :: l, i + 1, h => by
    rw [swapRemove_cons_cons]
    rw [show (a :: b :: l).eraseIdx (i + 1) = a :: (b :: l).eraseIdx i from rfl]
    exact List.Perm.cons a (swapRemove_perm (b :: l) i (Nat.lt_of_succ_lt_succ h))

lemma swapRemove_length {l : List α} {i : Nat} (h : i < l.length) :
    (swapRemove l i).length + 1 = l.length := by
  have hperm := swapRemove_perm l i h
  rw [hperm.length_eq]
  rw [List.length_eraseIdx_of_lt h]
  omega

lemma countP_eraseIdx {p : α → Bool} :
    ∀ (l : List α) (i : Nat) (hi : i < l.length), p (l.get ⟨i, hi⟩) = true →
      (l.eraseIdx i).countP p + 1 = l.countP p
  | [], i, hi, _ => by simp at hi
  | a :: l, 0, _, hp => by
    simp only [List.get] at hp
    simp [List.countP_cons, hp]
  | a :: l, i + 1, hi, hp => by
    simp only [List.get] at hp
    have := countP_eraseIdx l i (Nat.lt_of_succ_lt_succ hi) hp
    simp only [List.eraseIdx]
    simp [List.countP_cons, ← this]
    omega

lemma countP_swapRemove_of_position {p : α → Bool} {l : List α} {i : Nat}
    (h : position p l = some i) :
    (swapRemove l i).countP p + 1 = l.countP p := by
  obtain ⟨hi, hp⟩ := position_spec h
  rw [(swapRemove_perm l i hi).countP_eq]
  exact countP_eraseIdx l i hi hp

/-! Helper lemmas: the lifetime counters and the configuration under each
operation. -/

lemma countersLe_refl (e : Event) : e.countersLe e :=
  ⟨le_refl _, le_refl _, le_refl _⟩

lemma countersLe_trans {d e f : Event} (h1 : d.countersLe e) (h2 : e.countersLe f) :
    d.countersLe f :=
  ⟨le_trans h1.1 h2.1, le_trans h1.2.1 h2.2.1, le_trans h1.2.2 h2.2.2⟩

lemma try_clear_counters (e : Event) :
    (e.try_clear).times_subscribers_notified = e.times_subscribers_notified ∧
    (e.try_clear).times_subscribers_mut_notified = e.times_subscribers_mut_notified ∧
    (e.try_clear).times_func_subscribers_notified = e.times_func_subscribers_notified := by
  unfold Event.try_clear
  split <;>
    simp [Event.clear_all_subscribers, Event.clear_subscribers,
      Event.clear_subscribers_mut, Event.clear_fn_subscribers]

lemma try_clear_config (e : Event) : (e.try_clear).config = e.config := by
  unfold Event.try_clear
  split <;>
    simp [Event.clear_all_subscribers, Event.clear_subscribers,
      Event.clear_subscribers_mut, Event.clear_fn_subscribers]

lemma notify_subscribers_counters (e : Event) :
    ((e.notify_subscribers).1.times_subscribers_notified = e.times_subscribers_notified ∨
     (e.notify_subscribers).1.times_subscribers_notified = e.times_subscribers_notified + 1) ∧
    (e.notify_subscribers).1.times_subscribers_mut_notified = e.times_subscribers_mut_notified ∧
    (e.notify_subscribers).1.times_func_subscribers_notified = e.times_func_subscribers_notified := by
  unfold Event.notify_subscribers
  split <;> simp

lemma notify_subscribers_config (e : Event) :
    (e.notify_subscribers).1.config = e.config := by
  unfold Event.notify_subscribers
  split <;> rfl

lemma notify_subscribers_mut_counters (e : Event) :
    (e.notify_subscribers_mut).1.times_subscribers_notified = e.times_subscribers_notified ∧
    ((e.notify_subscribers_mut).1.times_subscribers_mut_notified = e.times_subscribers_mut_notified ∨
     (e.notify_subscribers_mut).1.times_subscribers_mut_notified = e.times_subscribers_mut_notified + 1) ∧
    (e.notify_subscribers_mut).1.times_func_subscribers_notified = e.times_func_subscribers_notified := by
  unfold Event.notify_subscribers_mut
  split
  · simp
  · dsimp only
    split <;> simp

lemma notify_subscribers_mut_config (e : Event) :
    (e.notify_subscribers_mut).1.config = e.config := by
  unfold Event.notify_subscribers_mut
  split
  · rfl
  · dsimp only
    split <;> rfl

lemma notify_fn_subscribers_counters (e : Event) :
    (e.notify_fn_subscribers).1.times_subscribers_notified = e.times_subscribers_notified ∧
    (e.notify_fn_subscribers).1.times_subscribers_mut_notified = e.times_subscribers_mut_notified ∧
    ((e.notify_fn_subscribers).1.times_func_subscribers_notified = e.times_func_subscribers_notified ∨
     (e.notify_fn_subscribers).1.times_func_subscribers_notified = e.times_func_subscribers_notified + 1) := by
  unfold Event.notify_fn_subscribers
  split <;> simp

lemma notify_fn_subscribers_config (e : Event) :
    (e.notify_fn_subscribers).1.config = e.config := by
  unfold Event.notify_fn_subscribers
  split <;> rfl

lemma countersLe_notify_subscribers (e : Event) : e.countersLe (e.notify_subscribers).1 := by
  obtain ⟨h1, h2, h3⟩ := notify_subscribers_counters e
  refine ⟨?a, le_of_eq h2.symm, le_of_eq h3.symm⟩
  rcases h1 with h | h <;> omega

lemma countersLe_notify_subscribers_mut (e : Event) :
    e.countersLe (e.notify_subscribers_mut).1 := by
  obtain ⟨h1, h2, h3⟩ := notify_subscribers_mut_counters e
  refine ⟨le_of_eq h1.symm, ?a, le_of_eq h3.symm⟩
  rcases h2 with h | h <;> omega

lemma countersLe_notify_fn_subscribers (e : Event) :
    e.countersLe (e.notify_fn_subscribers).1 := by
  obtain ⟨h1, h2, h3⟩ := notify_fn_subscribers_counters e
  refine ⟨le_of_eq h1.symm, le_of_eq h2.symm, ?a⟩
  rcases h3 with h | h <;> omega

lemma countersLe_try_clear (e : Event) : e.countersLe e.try_clear := by
  obtain ⟨h1, h2, h3⟩ := try_clear_counters e
  exact ⟨le_of_eq h1.symm, le_of_eq h2.symm, le_of_eq h3.symm⟩

lemma countersLe_notify (e : Event) : e.countersLe (e.notify).1 := by
  unfold Event.notify
  split
  · dsimp only
    split
    · exact countersLe_trans (countersLe_notify_subscribers e)
        (countersLe_notify_subscribers_mut _)
    · exact countersLe_trans (countersLe_notify_subscribers e)
        (countersLe_trans (countersLe_notify_subscribers_mut _)
          (countersLe_trans (countersLe_notify_fn_subscribers _) (countersLe_try_clear _)))
  · exact countersLe_trans (countersLe_notify_subscribers e) (countersLe_try_clear _)
  · dsimp only
    split
    · exact countersLe_notify_subscribers_mut e
    · exact countersLe_trans (countersLe_notify_subscribers_mut e) (countersLe_try_clear _)
  · exact countersLe_trans (countersLe_notify_fn_subscribers e) (countersLe_try_clear _)

lemma notify_config (e : Event) : (e.notify).1.config = e.config := by
  unfold Event.notify
  split
  · dsimp only
    split
    · rw [notify_subscribers_mut_config, notify_subscribers_config]
    · rw [try_clear_config, notify_fn_subscribers_config, notify_subscribers_mut_config,
        notify_subscribers_config]
  · rw [try_clear_config, notify_subscribers_config]
  · dsimp only
    split
    · exact notify_subscribers_mut_config e
    · rw [try_clear_config, notify_subscribers_mut_config]
  · rw [try_clear_config, notify_fn_subscribers_config]

lemma unsubscribe_getD_counters_config (e : Event) (s : RcSub) :
    ((e.unsubscribe s).getD e).times_subscribers_notified = e.times_subscribers_notified ∧
    ((e.unsubscribe s).getD e).times_subscribers_mut_notified = e.times_subscribers_mut_notified ∧
    ((e.unsubscribe s).getD e).times_func_subscribers_notified = e.times_func_subscribers_notified ∧
    ((e.unsubscribe s).getD e).config = e.config := by
  unfold Event.unsubscribe
  split <;> simp

lemma unsubscribe_mut_getD_counters_config (e : Event) (s : MutSub) :
    ((e.unsubscribe_mut s).getD e).times_subscribers_notified = e.times_subscribers_notified ∧
    ((e.unsubscribe_mut s).getD e).times_subscribers_mut_notified = e.times_subscribers_mut_notified ∧
    ((e.unsubscribe_mut s).getD e).times_func_subscribers_notified = e.times_func_subscribers_notified ∧
    ((e.unsubscribe_mut s).getD e).config = e.config := by
  unfold Event.unsubscribe_mut
  split <;> simp

lemma step_countersLe (e : Event) (op : Op) : e.countersLe (e.step op) := by
  cases op with
  | subscribe s => exact ⟨le_refl _, le_refl _, le_refl _⟩
  | subscribeMut s => exact ⟨le_refl _, le_refl _, le_refl _⟩
  | subscribeAsFn tag => exact ⟨le_refl _, le_refl _, le_refl _⟩
  | unsubscribe s =>
    obtain ⟨h1, h2, h3, _⟩ := unsubscribe_getD_counters_config e s
    exact ⟨le_of_eq h1.symm, le_of_eq h2.symm, le_of_eq h3.symm⟩
  | unsubscribeMut s =>
    obtain ⟨h1, h2, h3, _⟩ := unsubscribe_mut_getD_counters_config e s
    exact ⟨le_of_eq h1.symm, le_of_eq h2.symm, le_of_eq h3.symm⟩
  | doNotify => exact countersLe_notify e
  | clearAll => exact ⟨le_refl _, le_refl _, le_refl _⟩
  | clearSubs => exact ⟨le_refl _, le_refl _, le_refl _⟩
  | clearSubsMut => exact ⟨le_refl _, le_refl _, le_refl _⟩
  | clearFn => exact ⟨le_refl _, le_refl _, le_refl _⟩

lemma foldl_step_countersLe (ops : List Op) :
    ∀ e : Event, e.countersLe (ops.foldl Event.step e) := by
  induction ops with
  | nil => exact fun e => countersLe_refl e
  | cons op rest ih =>
    intro e
    exact countersLe_trans (step_countersLe e op) (ih (e.step op))

lemma step_config (e : Event) (op : Op) : (e.step op).config = e.config := by
  cases op with
  | subscribe s => rfl
  | subscribeMut s => rfl
  | subscribeAsFn tag => rfl
  | unsubscribe s => exact (unsubscribe_getD_counters_config e s).2.2.2
  | unsubscribeMut s => exact (unsubscribe_mut_getD_counters_config e s).2.2.2
  | doNotify => exact notify_config e
  | clearAll => rfl
  | clearSubs => rfl
  | clearSubsMut => rfl
  | clearFn => rfl

lemma acountersLe_refl (e : EventAsync) : e.countersLe e :=
  ⟨le_refl _, le_refl _⟩

lemma acountersLe_trans {d e f : EventAsync} (h1 : d.countersLe e) (h2 : e.countersLe f) :
    d.countersLe f :=
  ⟨le_trans h1.1 h2.1, le_trans h1.2 h2.2⟩

lemma async_try_clear_counters (e : EventAsync) :
    (e.try_clear).times_subscribers_notified = e.times_subscribers_notified ∧
    (e.try_clear).times_func_subscribers_notified = e.times_func_subscribers_notified := by
  unfold EventAsync.try_clear
  split <;>
    simp [EventAsync.clear_all_subscribers, EventAsync.clear_subscribers,
      EventAsync.clear_fn_subscribers]

lemma acountersLe_notify_subscribers (e : EventAsync) :
    e.countersLe (e.notify_subscribers).1 := by
  unfold EventAsync.notify_subscribers
  exact ⟨Nat.le_succ _, le_refl _⟩

lemma acountersLe_notify_fn_subscribers (e : EventAsync) :
    e.countersLe (e.notify_fn_subscribers).1 := by
  unfold EventAsync.notify_fn_subscribers
  exact ⟨le_refl _, Nat.le_succ _⟩

lemma acountersLe_try_clear (e : EventAsync) : e.countersLe e.try_clear := by
  obtain ⟨h1, h2⟩ := async_try_clear_counters e
  exact ⟨le_of_eq h1.symm, le_of_eq h2.symm⟩

lemma acountersLe_notify (e : EventAsync) : e.countersLe (e.notify).1 := by
  unfold EventAsync.notify
  split
  · dsimp only
    split
    · exact acountersLe_notify_subscribers e
    · split
      · exact acountersLe_trans (acountersLe_notify_subscribers e)
          (acountersLe_notify_fn_subscribers _)
      · exact acountersLe_trans (acountersLe_notify_subscribers e)
          (acountersLe_trans (acountersLe_notify_fn_subscribers _) (acountersLe_try_clear _))
  · dsimp only
    split
    · exact acountersLe_notify_subscribers e
    · exact acountersLe_trans (acountersLe_notify_subscribers e) (acountersLe_try_clear _)
  · dsimp only
    split
    · exact acountersLe_notify_fn_subscribers e
    · exact acountersLe_trans (acountersLe_notify_fn_subscribers e) (acountersLe_try_clear _)
  · exact acountersLe_refl e

lemma async_unsubscribe_getD_counters (e : EventAsync) (s : AsyncSub) :
    ((e.unsubscribe s).getD e).times_subscribers_notified = e.times_subscribers_notified ∧
    ((e.unsubscribe s).getD e).times_func_subscribers_notified = e.times_func_subscribers_notified := by
  unfold EventAsync.unsubscribe
  split <;> simp

lemma astep_countersLe (e : EventAsync) (op : AOp) : e.countersLe (e.step op) := by
  cases op with
  | subscribe s => exact ⟨le_refl _, le_refl _⟩
  | subscribeAsFn s => exact ⟨le_refl _, le_refl _⟩
  | unsubscribe s =>
    obtain ⟨h1, h2⟩ := async_unsubscribe_getD_counters e s
    exact ⟨le_of_eq h1.symm, le_of_eq h2.symm⟩
  | doNotify => exact acountersLe_notify e
  | doNotifySubs => exact acountersLe_notify_subscribers e
  | doNotifyFnSubs => exact acountersLe_notify_fn_subscribers e
  | clearAll => exact ⟨le_refl _, le_refl _⟩
  | clearSubs => exact ⟨le_refl _, le_refl _⟩
  | clearFn => exact ⟨le_refl _, le_refl _⟩

lemma afoldl_step_countersLe (ops : List AOp) :
    ∀ e : EventAsync, e.countersLe (ops.foldl EventAsync.step e) := by
  induction ops with
  | nil => exact fun e => acountersLe_refl e
  | cons op rest ih =>
    intro e
    exact acountersLe_trans (astep_countersLe e op) (ih (e.step op))

/-! Helper lemmas about the mutating dispatch loop and the async join
phase. -/

lemma runMutLoop_ok :
    ∀ {l : List MutSub}, (∀ s ∈ l, s.borrowed = false) →
      (runMutLoop l).1 = l.map (fun s => { s with state := s.upd s.state }) ∧
      (runMutLoop l).2.1 = l.map (fun s => Inv.subMut s.addr) ∧
      (runMutLoop l).2.2 = false := by
  intro l h
  induction l with
  | nil => exact ⟨rfl, rfl, rfl⟩
  | cons s rest ih =>
    have hs : s.borrowed = false := h s (List.mem_cons_self s rest)
    have ht : ∀ x ∈ rest, x.borrowed = false := fun x hx => h x (List.mem_cons_of_mem s hx)
    obtain ⟨h1, h2, h3⟩ := ih ht
    simp [runMutLoop, hs, h1, h2, h3]

lemma runMutLoop_panic :
    ∀ {l : List MutSub}, l.any (fun s => s.borrowed) = true →
      (runMutLoop l).2.2 = true ∧
      (runMutLoop l).2.1.length < l.length := by
  intro l h
  induction l with
  | nil => simp at h
  | cons s rest ih =>
    by_cases hs : s.borrowed = true
    · constructor
      · simp [runMutLoop, hs]
      · simp [runMutLoop, hs]
    · have hrest : rest.any (fun s => s.borrowed) = true := by
        simp only [List.any_cons, Bool.or_eq_true] at h
        rcases h with h | h
        · exact absurd h hs
        · exact h
      obtain ⟨h1, h2⟩ := ih hrest
      have hs2 : s.borrowed = false := by
        cases hb : s.borrowed
        · rfl
        · exact absurd hb hs
      constructor
      · simp [runMutLoop, hs2, h1]
      · simp only [runMutLoop, hs2, Bool.false_eq_true, if_false]
        simpa using Nat.succ_lt_succ h2

lemma joinPhase_mem :
    ∀ {l : List AsyncSub} {x : AStep}, x ∈ (joinPhase l).1 → ∃ a, x = AStep.join a := by
  intro l
  induction l with
  | nil => intro x hx; simp [joinPhase] at hx
  | cons s rest ih =>
    intro x hx
    by_cases hs : s.fails = true
    · simp [joinPhase, hs] at hx
      exact ⟨s.addr, hx⟩
    · simp only [joinPhase, hs, Bool.false_eq_true, if_false, List.mem_cons] at hx
      rcases hx with rfl | hx
      · exact ⟨s.addr, rfl⟩
      · exact ih hx

lemma joinPhase_ok :
    ∀ {l : List AsyncSub}, l.all (fun s => !s.fails) = true →
      (joinPhase l).1 = l.map (fun s => AStep.join s.addr) ∧ (joinPhase l).2 = false := by
  intro l h
  induction l with
  | nil => exact ⟨rfl, rfl⟩
  | cons s rest ih =>
    simp only [List.all_cons, Bool.and_eq_true, Bool.not_eq_eq_eq_not, Bool.not_true] at h
    have hs : s.fails = false := by simpa using h.1
    obtain ⟨h1, h2⟩ := ih (by simpa using h.2)
    simp [joinPhase, hs, h1, h2]

lemma joinPhase_fail :
    ∀ {l : List AsyncSub}, l.any (fun s => s.fails) = true → (joinPhase l).2 = true := by
  intro l h
  induction l with
  | nil => simp at h
  | cons s rest ih =>
    by_cases hs : s.fails = true
    · simp [joinPhase, hs]
    · have hs2 : s.fails = false := by
        cases hb : s.fails
        · rfl
        · exact absurd hb hs
      have hrest : rest.any (fun s => s.fails) = true := by
        simp only [List.any_cons, Bool.or_eq_true] at h
        rcases h with h | h
        · exact absurd h hs
        · exact h
      simp [joinPhase, hs2, ih hrest]

/-! Claim theorems. -/

/-- C1 (counterexample to the claim as stated at N = 0): with zero registered
read-only subscribers and `subscribers_to_notify = OnlySubscribers`, one
`notify()` does not increment `times_subscribers_notified` by 1: the source
returns early on an empty collection, so the claim quantified over all
N >= 0 fails. -/
theorem C1_counterexample :
    ¬ (((Event.new
          { subscribers_to_notify := Notify.OnlySubscribers
            clear_subscribers_after_notification := Clear.None }).notify).1.times_subscribers_notified
        = (Event.new
            { subscribers_to_notify := Notify.OnlySubscribers
              clear_subscribers_after_notification := Clear.None }).times_subscribers_notified + 1) := by
  decide

/-- C1 (amended): for the synchronous Event with only read-only subscribers
registered and `subscribers_to_notify = All` or `OnlySubscribers`, one
`notify()` invokes each registered read-only subscriber exactly once, in
registration order (the invocation trace equals the registration list), does
not panic, and increments `times_subscribers_notified` by exactly 1 (not by N)
when at least one subscriber is registered, while with zero registered
subscribers the counter is left unchanged. -/
theorem C1_batch_counter_and_order (e : Event)
    (hk : e.config.subscribers_to_notify = Notify.All ∨
          e.config.subscribers_to_notify = Notify.OnlySubscribers)
    (hm : e.subscribers_mut = []) (hf : e.fn_subscribers = []) :
    (e.notify).2.2 = false ∧
    (e.notify).2.1 = e.subscribers.map (fun s => Inv.sub s.addr) ∧
    (e.notify).1.times_subscribers_notified =
      (if e.subscribers.isEmpty then e.times_subscribers_notified
       else e.times_subscribers_notified + 1) := by
  rcases hk with hk | hk <;> cases hs : e.subscribers <;>
    simp [Event.notify, hk, Event.notify_subscribers, Event.notify_subscribers_mut,
      Event.notify_fn_subscribers, hm, hf, hs, runMutLoop, try_clear_counters]

/-- C1 witness: on `sampleTwoReadonly`, `notify()` returns normally, invokes
exactly the two registered subscribers in registration order, and the
read-only counter reads 1 (not 2). -/
theorem C1_witness :
    (sampleTwoReadonly.notify).2.2 = false ∧
    (sampleTwoReadonly.notify).2.1 = [Inv.sub 1, Inv.sub 2] ∧
    (sampleTwoReadonly.notify).1.times_subscribers_notified = 1 := by
  have h := C1_batch_counter_and_order sampleTwoReadonly (Or.inr rfl) rfl rfl
  simpa [sampleTwoReadonly] using h

/-- C2 (evaluation at the failing input): `sampleAllKinds` is configured with
`clear_after_notification = All` and holds one subscriber of each kind;
`notify()` completes without panic and empties the read-only and closure
collections, but the mutating collection still holds its subscriber.  The
source's `clear_all_subscribers` (lib.rs lines 249-252) never clears
`subscribers_mut`, contradicting the claim that after `notify()` all three
collections are empty. -/
theorem C2_clear_all_skips_mut_collection :
    (sampleAllKinds.notify).2.2 = false ∧
    (sampleAllKinds.notify).1.subscribers = [] ∧
    (sampleAllKinds.notify).1.fn_subscribers = [] ∧
    (sampleAllKinds.notify).1.subscribers_mut.length = 1 := by
  refine ⟨rfl, rfl, rfl, rfl⟩

/-- C3 (counterexample to the claim as stated): on a freshly constructed
`EventAsync` with zero registered members of either kind,
`notify_subscribers()` and `notify_fn_subscribers()` both change (increment)
their lifetime counter: the async dispatcher has no emptiness guard. -/
theorem C3_counterexample :
    ¬ (((EventAsync.new EventConfig.default).notify_subscribers).1.times_subscribers_notified
        = (EventAsync.new EventConfig.default).times_subscribers_notified) ∧
    ¬ (((EventAsync.new EventConfig.default).notify_fn_subscribers).1.times_func_subscribers_notified
        = (EventAsync.new EventConfig.default).times_func_subscribers_notified) := by
  decide

/-- C3 (amended): for EventAsync, `notify_subscribers()` (resp.
`notify_fn_subscribers()`) increments its lifetime counter by exactly 1 on
every call, even when the corresponding collection is empty; the increment is
placed after the spawn phase and before the join phase in the calling
thread's program order, so the counter is not gated on the completion of the
spawned units (the call itself still returns only after the join phase). -/
theorem C3_async_counter_unconditional (e : EventAsync) :
    (e.notify_subscribers).1.times_subscribers_notified
      = e.times_subscribers_notified + 1 ∧
    (e.notify_fn_subscribers).1.times_func_subscribers_notified
      = e.times_func_subscribers_notified + 1 ∧
    (∃ A B, (e.notify_subscribers).2.1 = A ++ AStep.inc :: B ∧
      (∀ x ∈ A, ∃ a, x = AStep.spawn a) ∧ (∀ x ∈ B, ∃ a, x = AStep.join a)) ∧
    (∃ A B, (e.notify_fn_subscribers).2.1 = A ++ AStep.inc :: B ∧
      (∀ x ∈ A, ∃ a, x = AStep.spawn a) ∧ (∀ x ∈ B, ∃ a, x = AStep.join a)) := by
  refine ⟨rfl, rfl, ⟨_, _, rfl, ?a, ?b⟩, ⟨_, _, rfl, ?c, ?d⟩⟩
  case a =>
    intro x hx
    obtain ⟨t, _, rfl⟩ := List.mem_map.mp hx
    exact ⟨t.addr, rfl⟩
  case b => exact fun x hx => joinPhase_mem hx
  case c =>
    intro x hx
    obtain ⟨t, _, rfl⟩ := List.mem_map.mp hx
    exact ⟨t.addr, rfl⟩
  case d => exact fun x hx => joinPhase_mem hx

/-- C4: when the mutating kind is dispatched (`notify_subscribers_mut`, the
function `notify` runs for `OnlySubscribersMut` and as part of `All`), and no
cell is borrowed elsewhere, every mutating subscriber's update is applied to
its own state, each is invoked exactly once in registration order, the call
does not panic, and the mutating counter increments by 1 (when the collection
is non-empty); if some cell is already borrowed, the call panics (fails
fatally): the loop stops early (strictly fewer invocations than registered
subscribers) and the mutating counter is left unchanged. -/
theorem C4_mut_exclusive_access (e : Event) :
    ((∀ s ∈ e.subscribers_mut, s.borrowed = false) →
      (e.notify_subscribers_mut).2.2 = false ∧
      (e.notify_subscribers_mut).1.subscribers_mut.map (fun s => s.state)
        = e.subscribers_mut.map (fun s => s.upd s.state) ∧
      (e.notify_subscribers_mut).2.1 = e.subscribers_mut.map (fun s => Inv.subMut s.addr) ∧
      (e.notify_subscribers_mut).1.times_subscribers_mut_notified =
        (if e.subscribers_mut.isEmpty then e.times_subscribers_mut_notified
         else e.times_subscribers_mut_notified + 1)) ∧
    (e.subscribers_mut.any (fun s => s.borrowed) = true →
      (e.notify_subscribers_mut).2.2 = true ∧
      (e.notify_subscribers_mut).2.1.length < e.subscribers_mut.length ∧
      (e.notify_subscribers_mut).1.times_subscribers_mut_notified
        = e.times_subscribers_mut_notified) := by
  constructor
  · intro h
    cases hs : e.subscribers_mut with
    | nil => simp [Event.notify_subscribers_mut, hs]
    | cons a l =>
      rw [hs] at h
      obtain ⟨h1, h2, h3⟩ := runMutLoop_ok h
      simp [Event.notify_subscribers_mut, hs, h1, h2, h3, List.map_map, Function.comp]
  · intro h
    cases hs : e.subscribers_mut with
    | nil => rw [hs] at h; simp at h
    | cons a l =>
      rw [hs] at h
      obtain ⟨h1, h2⟩ := runMutLoop_panic h
      have h2b : (runMutLoop (a :: l)).2.1.length < l.length + 1 := by simpa using h2
      simp [Event.notify_subscribers_mut, hs, h1, h2b]

/-- C4 witness: on `sampleMutOk` (state 10, update adds 10) one dispatch of
the mutating kind yields state 20 and mutating counter 1 without panic; on
`sampleMutBorrowed` (a borrow is held) the dispatch panics. -/
theorem C4_witness :
    (sampleMutOk.notify_subscribers_mut).2.2 = false ∧
    (sampleMutOk.notify_subscribers_mut).1.subscribers_mut.map (fun s => s.state) = [20] ∧
    (sampleMutOk.notify_subscribers_mut).1.times_subscribers_mut_notified = 1 ∧
    (sampleMutBorrowed.notify_subscribers_mut).2.2 = true := by
  have h1 := (C4_mut_exclusive_access sampleMutOk).1
    (by intro x hx; simp [sampleMutOk] at hx; subst hx; rfl)
  have h2 := (C4_mut_exclusive_access sampleMutBorrowed).2 (by rfl)
  obtain ⟨ha, hb, _, hc⟩ := h1
  refine ⟨ha, ?m, ?n, h2.1⟩
  · simpa [sampleMutOk] using hb
  · simpa [sampleMutOk] using hc

/-- C5: `unsubscribe` (and `unsubscribe_mut`) with a handle whose identity
(address) matches no entry panics (returns `none`, a fatal not-found
condition) and leaves the event unchanged; the lookup depends only on the
handle's identity, never on the pointee's contents; with a handle registered
exactly once, it succeeds, the collection afterwards has no entry with that
identity and has exactly one element fewer (removal may reorder, as
`swap_remove` does), and every other field of the event is unchanged. -/
theorem C5_unsubscribe_identity (e : Event) (s : RcSub) (m : MutSub) :
    ((∀ x ∈ e.subscribers, x.addr ≠ s.addr) →
      e.unsubscribe s = none ∧ e.step (Op.unsubscribe s) = e) ∧
    (∀ v : Int, e.unsubscribe s = e.unsubscribe { addr := s.addr, value := v }) ∧
    (e.subscribers.countP (fun x => x.addr == s.addr) = 1 →
      ∃ e2, e.unsubscribe s = some e2 ∧
        e2.subscribers.countP (fun x => x.addr == s.addr) = 0 ∧
        e2.subscribers.length + 1 = e.subscribers.length ∧
        e2.subscribers_mut = e.subscribers_mut ∧
        e2.fn_subscribers = e.fn_subscribers ∧
        e2.config = e.config ∧
        e2.times_subscribers_notified = e.times_subscribers_notified ∧
        e2.times_subscribers_mut_notified = e.times_subscribers_mut_notified ∧
        e2.times_func_subscribers_notified = e.times_func_subscribers_notified) ∧
    ((∀ x ∈ e.subscribers_mut, x.addr ≠ m.addr) →
      e.unsubscribe_mut m = none ∧ e.step (Op.unsubscribeMut m) = e) ∧
    (e.subscribers_mut.countP (fun x => x.addr == m.addr) = 1 →
      ∃ e2, e.unsubscribe_mut m = some e2 ∧
        e2.subscribers_mut.countP (fun x => x.addr == m.addr) = 0 ∧
        e2.subscribers_mut.length + 1 = e.subscribers_mut.length) := by
  refine ⟨?notfound, fun v => rfl, ?once, ?notfoundMut, ?onceMut⟩
  case notfound =>
    intro h
    have hp : position (fun x => x.addr == s.addr) e.subscribers = none :=
      position_eq_none_of (fun x hx => by simpa using h x hx)
    have hu : e.unsubscribe s = none := by
      unfold Event.unsubscribe Event.contains
      rw [hp]
    exact ⟨hu, by simp [Event.step, hu]⟩
  case once =>
    intro hc
    have hpos : 0 < e.subscribers.countP (fun x => x.addr == s.addr) := by
      rw [hc]; exact Nat.one_pos
    obtain ⟨i, hi⟩ := position_isSome_of_countP_pos hpos
    obtain ⟨hlt, -⟩ := position_spec hi
    refine ⟨{ e with subscribers := swapRemove e.subscribers i }, ?u, ?cnt, ?len,
      rfl, rfl, rfl, rfl, rfl, rfl⟩
    case u =>
      unfold Event.unsubscribe Event.contains
      rw [hi]
    case cnt =>
      have := countP_swapRemove_of_position hi
      rw [hc] at this
      simpa using this
    case len => simpa using swapRemove_length hlt
  case notfoundMut =>
    intro h
    have hp : position (fun x => x.addr == m.addr) e.subscribers_mut = none :=
      position_eq_none_of (fun x hx => by simpa using h x hx)
    have hu : e.unsubscribe_mut m = none := by
      unfold Event.unsubscribe_mut Event.contains_mut
      rw [hp]
    exact ⟨hu, by simp [Event.step, hu]⟩
  case onceMut =>
    intro hc
    have hpos : 0 < e.subscribers_mut.countP (fun x => x.addr == m.addr) := by
      rw [hc]; exact Nat.one_pos
    obtain ⟨i, hi⟩ := position_isSome_of_countP_pos hpos
    obtain ⟨hlt, -⟩ := position_spec hi
    refine ⟨{ e with subscribers_mut := swapRemove e.subscribers_mut i }, ?u, ?cnt, ?len⟩
    case u =>
      unfold Event.unsubscribe_mut Event.contains_mut
      rw [hi]
    case cnt =>
      have := countP_swapRemove_of_position hi
      rw [hc] at this
      simpa using this
    case len => simpa using swapRemove_length hlt

/-- C5 witness: on `sampleForRemoval`, unsubscribing a handle at address 9
(whose contents equal those of registered handles) fails and changes nothing;
unsubscribing the handle at address 5 (through a clone whose `value` view
differs, showing identity comparison) succeeds and the collection no longer
holds address 5; the analogous facts hold for the mutating collection. -/
theorem C5_witness :
    (sampleForRemoval.unsubscribe { addr := 9, value := 1 } = none ∧
      sampleForRemoval.step (Op.unsubscribe { addr := 9, value := 1 }) = sampleForRemoval) ∧
    (∃ e2, sampleForRemoval.unsubscribe { addr := 5, value := 99 } = some e2 ∧
      e2.subscribers.countP (fun x => x.addr == 5) = 0 ∧
      e2.subscribers.length + 1 = sampleForRemoval.subscribers.length) ∧
    (∃ e2, sampleForRemoval.unsubscribe_mut
        { addr := 7, borrowed := true, state := 42, upd := fun x => x + 1 } = some e2 ∧
      e2.subscribers_mut.countP (fun x => x.addr == 7) = 0 ∧
      e2.subscribers_mut.length + 1 = sampleForRemoval.subscribers_mut.length) := by
  have h1 := C5_unsubscribe_identity sampleForRemoval { addr := 9, value := 1 }
    { addr := 7, borrowed := true, state := 42, upd := fun x => x + 1 }
  have h2 := C5_unsubscribe_identity sampleForRemoval { addr := 5, value := 99 }
    { addr := 7, borrowed := true, state := 42, upd := fun x => x + 1 }
  refine ⟨h1.1 (by decide), ?once, ?onceMut⟩
  case once =>
    obtain ⟨e2, hu, hcnt, hlen, -⟩ := h2.2.2.1 (by decide)
    exact ⟨e2, hu, hcnt, hlen⟩
  case onceMut =>
    obtain ⟨e2, hu, hcnt, hlen⟩ := h2.2.2.2.2 (by rfl)
    exact ⟨e2, hu, hcnt, hlen⟩

/-- C6: with `subscribers_to_notify = OnlyFnSubscribers`, `notify()` leaves
the read-only and mutating counters unchanged, invokes no read-only or
mutating subscriber (no such invocation occurs in the trace), and increments
the closure counter by 1 exactly when at least one closure is registered. -/
theorem C6_only_fn_dispatch (e : Event)
    (hk : e.config.subscribers_to_notify = Notify.OnlyFnSubscribers) :
    (e.notify).2.2 = false ∧
    (e.notify).1.times_subscribers_notified = e.times_subscribers_notified ∧
    (e.notify).1.times_subscribers_mut_notified = e.times_subscribers_mut_notified ∧
    (∀ a, Inv.sub a ∉ (e.notify).2.1) ∧
    (∀ a, Inv.subMut a ∉ (e.notify).2.1) ∧
    (e.notify).1.times_func_subscribers_notified =
      (if e.fn_subscribers.isEmpty then e.times_func_subscribers_notified
       else e.times_func_subscribers_notified + 1) := by
  cases hs : e.fn_subscribers <;>
    simp [Event.notify, hk, Event.notify_fn_subscribers, hs, try_clear_counters]

/-- C6 witness: on `sampleOnlyFn` (one read-only subscriber, one closure),
after one `notify()` the read-only counter reads 0, the closure counter reads
1, and the read-only subscriber was not invoked. -/
theorem C6_witness :
    (sampleOnlyFn.notify).1.times_subscribers_notified = 0 ∧
    (sampleOnlyFn.notify).1.times_func_subscribers_notified = 1 ∧
    Inv.sub 1 ∉ (sampleOnlyFn.notify).2.1 := by
  have h := C6_only_fn_dispatch sampleOnlyFn rfl
  refine ⟨?a, ?b, h.2.2.2.1 1⟩
  case a => simpa [sampleOnlyFn] using h.2.1
  case b => simpa [sampleOnlyFn] using h.2.2.2.2.2

/-- C9: `EventAsync::notify_subscribers` spawns exactly one unit per
registered subscriber (the spawn steps of the trace are one per registration,
in order); when no unit fails, the call returns normally and every spawned
unit's join is observed before the return (the trace carries a join for every
subscriber after the single increment, and the counter reads old + 1); when
some unit fails, the failure surfaces at the join phase as a panic of the
call (not suppressed). -/
theorem C9_fanout_join_barrier (e : EventAsync) :
    ((e.notify_subscribers).2.1.filter
        (fun st => match st with | AStep.spawn _ => true | _ => false))
      = e.subscribers.map (fun s => AStep.spawn s.addr) ∧
    (e.subscribers.all (fun s => !s.fails) = true →
      (e.notify_subscribers).2.2 = false ∧
      (e.notify_subscribers).2.1
        = e.subscribers.map (fun s => AStep.spawn s.addr)
            ++ AStep.inc :: e.subscribers.map (fun s => AStep.join s.addr) ∧
      (e.notify_subscribers).1.times_subscribers_notified
        = e.times_subscribers_notified + 1) ∧
    (e.subscribers.any (fun s => s.fails) = true →
      (e.notify_subscribers).2.2 = true) := by
  refine ⟨?spawns, ?ok, ?fail⟩
  case spawns =>
    show (List.filter _ (e.subscribers.map (fun s => AStep.spawn s.addr)
        ++ AStep.inc :: (joinPhase e.subscribers).1)) = _
    rw [List.filter_append]
    have hsp : List.filter
        (fun st => match st with | AStep.spawn _ => true | _ => false)
        (e.subscribers.map (fun s => AStep.spawn s.addr))
        = e.subscribers.map (fun s => AStep.spawn s.addr) := by
      apply List.filter_eq_self.mpr
      intro x hx
      obtain ⟨t, -, rfl⟩ := List.mem_map.mp hx
      rfl
    have hjn : List.filter
        (fun st => match st with | AStep.spawn _ => true | _ => false)
        (AStep.inc :: (joinPhase e.subscribers).1) = [] := by
      apply List.filter_eq_nil_iff.mpr
      intro x hx
      rcases List.mem_cons.mp hx with rfl | hx
      · simp
      · obtain ⟨a, rfl⟩ := joinPhase_mem hx
        simp
    rw [hsp, hjn, List.append_nil]
  case ok =>
    intro h
    obtain ⟨h1, h2⟩ := joinPhase_ok h
    refine ⟨?f, ?t, rfl⟩
    case f =>
      show (joinPhase e.subscribers).2 = false
      exact h2
    case t =>
      show e.subscribers.map (fun s => AStep.spawn s.addr)
          ++ AStep.inc :: (joinPhase e.subscribers).1 = _
      rw [h1]
  case fail =>
    intro h
    show (joinPhase e.subscribers).2 = true
    exact joinPhase_fail h

/-- C9 witness: on `sampleAsyncTwo` (two subscribers, none failing) the call
returns normally with both units spawned and joined, in order, and the
counter reads 1; on `sampleAsyncFailing` the call panics at the join. -/
theorem C9_witness :
    (sampleAsyncTwo.notify_subscribers).2.2 = false ∧
    (sampleAsyncTwo.notify_subscribers).2.1
      = [AStep.spawn 1, AStep.spawn 2, AStep.inc, AStep.join 1, AStep.join 2] ∧
    (sampleAsyncTwo.notify_subscribers).1.times_subscribers_notified = 1 ∧
    (sampleAsyncFailing.notify_subscribers).2.2 = true := by
  have h1 := (C9_fanout_join_barrier sampleAsyncTwo).2.1 (by decide)
  have h2 := (C9_fanout_join_barrier sampleAsyncFailing).2.2 (by decide)
  exact ⟨h1.1, by simpa [sampleAsyncTwo] using h1.2.1,
    by simpa [sampleAsyncTwo] using h1.2.2, h2⟩

/-- C7: over every sequence of public operations on an `Event` (and on an
`EventAsync`), each lifetime counter is monotonically non-decreasing, and
applying the clear policy (`try_clear`, for every configured policy value)
never changes any lifetime counter. -/
theorem C7_counters_monotone_clear_frame :
    (∀ (e : Event) (ops : List Op),
      e.times_subscribers_notified ≤ (ops.foldl Event.step e).times_subscribers_notified ∧
      e.times_subscribers_mut_notified
        ≤ (ops.foldl Event.step e).times_subscribers_mut_notified ∧
      e.times_func_subscribers_notified
        ≤ (ops.foldl Event.step e).times_func_subscribers_notified) ∧
    (∀ e : Event,
      (e.try_clear).times_subscribers_notified = e.times_subscribers_notified ∧
      (e.try_clear).times_subscribers_mut_notified = e.times_subscribers_mut_notified ∧
      (e.try_clear).times_func_subscribers_notified = e.times_func_subscribers_notified) ∧
    (∀ (e : EventAsync) (ops : List AOp),
      e.times_subscribers_notified ≤ (ops.foldl EventAsync.step e).times_subscribers_notified ∧
      e.times_func_subscribers_notified
        ≤ (ops.foldl EventAsync.step e).times_func_subscribers_notified) ∧
    (∀ e : EventAsync,
      (e.try_clear).times_subscribers_notified = e.times_subscribers_notified ∧
      (e.try_clear).times_func_subscribers_notified = e.times_func_subscribers_notified) :=
  ⟨fun e ops => foldl_step_countersLe ops e, try_clear_counters,
    fun e ops => afoldl_step_countersLe ops e, async_try_clear_counters⟩

/-- C8: no public operation on a synchronous `Event` — notify, subscribe,
subscribe_mut, subscribe_as_fn, unsubscribe, unsubscribe_mut, or any clear —
changes the event's `config` field. -/
theorem C8_config_immutable (e : Event) (op : Op) : (e.step op).config = e.config :=
  step_config e op

/-- C10 (evaluation at the failing input): `EventConfig::default` is
`{All, All}` and is the config of default-constructed `Event`/`EventAsync`;
a default-configured event with one subscriber of each kind notifies all
three kinds on `notify()` and afterwards has discarded its read-only and
closure subscribers — but its mutating subscriber is still registered
(`clear_all_subscribers` skips `subscribers_mut`), so the claim that
subscribers registered on a default-configured event are discarded after the
first `notify()` fails for the mutating kind. -/
theorem C10_default_config_behavior :
    EventConfig.default.subscribers_to_notify = Notify.All ∧
    EventConfig.default.clear_subscribers_after_notification = Clear.All ∧
    Event.mkDefault.config = EventConfig.default ∧
    EventAsync.mkDefault.config = EventConfig.default ∧
    ((((Event.mkDefault.subscribe { addr := 1, value := 0 }).subscribe_mut
        { addr := 2, borrowed := false, state := 5, upd := fun x => x }).subscribe_as_fn
        3).notify).2.1 = [Inv.sub 1, Inv.subMut 2, Inv.fnSub 3] ∧
    ((((Event.mkDefault.subscribe { addr := 1, value := 0 }).subscribe_mut
        { addr := 2, borrowed := false, state := 5, upd := fun x => x }).subscribe_as_fn
        3).notify).1.subscribers = [] ∧
    ((((Event.mkDefault.subscribe { addr := 1, value := 0 }).subscribe_mut
        { addr := 2, borrowed := false, state := 5, upd := fun x => x }).subscribe_as_fn
        3).notify).1.fn_subscribers = [] ∧
    ((((Event.mkDefault.subscribe { addr := 1, value := 0 }).subscribe_mut
        { addr := 2, borrowed := false, state := 5, upd := fun x => x }).subscribe_as_fn
        3).notify).1.subscribers_mut.length = 1 :=
  ⟨rfl, rfl, rfl, rfl, rfl, rfl, rfl, rfl⟩

/-- C3 witness: on `sampleAsyncFailing` (one registered subscriber), one
`notify_subscribers()` call takes the counter from 0 to 1 and its trace splits
into spawns, the single increment, then joins. -/
theorem C3_witness :
    (sampleAsyncFailing.notify_subscribers).1.times_subscribers_notified = 1 ∧
    (∃ A B, (sampleAsyncFailing.notify_subscribers).2.1 = A ++ AStep.inc :: B ∧
      (∀ x ∈ A, ∃ a, x = AStep.spawn a) ∧ (∀ x ∈ B, ∃ a, x = AStep.join a)) := by
  have h := C3_async_counter_unconditional sampleAsyncFailing
  exact ⟨h.1, h.2.2.1⟩

end Rustvent
